import Mathlib

/-!
Verification of the core of `live-transcribe`: the text-diff engine
(`src/text_diff.rs`), the correction state machine
(`src/transcription_state.rs`), the silence classifier
(`src/audio.rs`, `AudioCapture::is_silence`) and the commit-lane
submission path (`src/transcription_worker.rs`).

Modelling conventions:
* `f32` audio samples and thresholds are modelled as exact rationals (`Rat`);
  the one floating-point operation the claims touch, `rms < threshold` with
  `rms = sqrt (sum_squares / len)`, is expressed over the rationals as
  `0 < threshold ∧ sum_squares / len < threshold * threshold`, which is
  equivalent over the reals since `sqrt` is monotone and non-negative.
* `u64` request ids are `Nat` with an explicit `% 2 ^ 64` at the one place
  the source uses `wrapping_add`.
* Rust `String` is Lean `String`; byte-offset slicing in the source always
  happens at a character boundary, so it is rendered as `List.drop` /
  `List.take` on `String.data` with the byte offset recomputed via
  `Char.utf8Size`.
-/

namespace LiveTranscribe

/-- `constants::audio::MIN_WHISPER_SAMPLES`. -/
def MIN_WHISPER_SAMPLES : Nat := 24000

/-- `constants::vad::COMMIT_SILENCE_CHUNKS`. -/
def COMMIT_SILENCE_CHUNKS : Nat := 5

/-- `constants::vad::MAX_TRAILING_SILENCE_CHUNKS`. -/
def MAX_TRAILING_SILENCE_CHUNKS : Nat := 2

/-- `constants::streaming::LIVE_PREVIEW_DELAY_CHUNKS`. -/
def LIVE_PREVIEW_DELAY_CHUNKS : Nat := 5

/-- `constants::worker::MAX_PENDING_REQUESTS`. -/
def MAX_PENDING_REQUESTS : Nat := 2

/-- Modulus for `u64` wrapping arithmetic. -/
def U64_MOD : Nat := 2 ^ 64

/-- Result of `text_diff::compute_text_diff` (struct `TextDiff`). -/
structure TextDiff where
  common_prefix_bytes : Nat
  chars_to_delete : Nat
  suffix_to_type : String
deriving DecidableEq, Repr

/-- Length in characters of the longest common prefix of two char lists.
The Rust loop in `compute_text_diff` walks `old.chars().zip(new.chars())`
and stops at the first mismatch; this function counts how many steps it
takes. -/
def commonPrefixChars : List Char → List Char → Nat
  | c1 :: t1, c2 :: t2 => if c1 = c2 then commonPrefixChars t1 t2 + 1 else 0
  | _, _ => 0

/-- Total UTF-8 byte size of a char list (`char::len_utf8` summed). -/
def utf8Len (l : List Char) : Nat := (l.map Char.utf8Size).sum

/-- `text_diff::compute_text_diff`.  The Rust code accumulates
`common_prefix_bytes` by adding `c1.len_utf8()` per matching char and then
slices both strings at that byte offset; since the offset is exactly the
byte length of the first `k` characters (where `k` is the matching-char
count), slicing there is dropping `k` characters. -/
def compute_text_diff (old_text new_text : String) : TextDiff :=
  let k := commonPrefixChars old_text.data new_text.data
  { common_prefix_bytes := utf8Len (old_text.data.take k)
  , chars_to_delete := (old_text.data.drop k).length
  , suffix_to_type := String.mk (new_text.data.drop k) }

/-- `text_diff::compute_append`: Rust checks
`new_text.starts_with(old_text) && new_text.len() > old_text.len()` (byte
lengths) and returns the byte slice `new_text[old_text.len()..]`; when the
guard holds the slice boundary is a char boundary, so the slice is dropping
`old_text`'s characters. -/
def compute_append (old_text new_text : String) : Option String :=
  if old_text.data.isPrefixOf new_text.data
      && decide (old_text.utf8ByteSize < new_text.utf8ByteSize) then
    some (String.mk (new_text.data.drop old_text.data.length))
  else
    none

theorem commonPrefixChars_le_left (a b : List Char) :
    commonPrefixChars a b ≤ a.length := by
  induction a generalizing b with
  | nil => simp [commonPrefixChars]
  | cons c t ih =>
    cases b with
    | nil => simp [commonPrefixChars]
    | cons d u =>
      by_cases h : c = d
      · simpa [commonPrefixChars, h, Nat.succ_le_succ_iff] using ih u
      · simp [commonPrefixChars, h]

theorem commonPrefixChars_le_right (a b : List Char) :
    commonPrefixChars a b ≤ b.length := by
  induction a generalizing b with
  | nil => simp [commonPrefixChars]
  | cons c t ih =>
    cases b with
    | nil => simp [commonPrefixChars]
    | cons d u =>
      by_cases h : c = d
      · simpa [commonPrefixChars, h, Nat.succ_le_succ_iff] using ih u
      · simp [commonPrefixChars, h]

theorem commonPrefixChars_take_eq (a b : List Char) :
    a.take (commonPrefixChars a b) = b.take (commonPrefixChars a b) := by
  induction a generalizing b with
  | nil => simp [commonPrefixChars]
  | cons c t ih =>
    cases b with
    | nil => simp [commonPrefixChars]
    | cons d u =>
      by_cases h : c = d
      · simp [commonPrefixChars, h, List.take_succ_cons, ih u]
      · simp [commonPrefixChars, h]

theorem commonPrefixChars_maximal (a b : List Char) :
    commonPrefixChars a b = a.length ∨ commonPrefixChars a b = b.length ∨
      a.get? (commonPrefixChars a b) ≠ b.get? (commonPrefixChars a b) := by
  induction a generalizing b with
  | nil => simp [commonPrefixChars]
  | cons c t ih =>
    cases b with
    | nil => simp [commonPrefixChars]
    | cons d u =>
      by_cases h : c = d
      · rcases ih u with h1 | h1 | h1
        · exact Or.inl (by simp [commonPrefixChars, h, h1])
        · exact Or.inr (Or.inl (by simp [commonPrefixChars, h, h1]))
        · exact Or.inr (Or.inr (by simpa [commonPrefixChars, h] using h1))
      · exact Or.inr (Or.inr (by simp [commonPrefixChars, h]))

theorem commonPrefixChars_self (a : List Char) :
    commonPrefixChars a a = a.length := by
  induction a with
  | nil => simp [commonPrefixChars]
  | cons c t ih => simp [commonPrefixChars, ih]

theorem mk_append_mk (a b : List Char) :
    String.mk a ++ String.mk b = String.mk (a ++ b) := rfl

theorem mk_data (s : String) : String.mk s.data = s := rfl

theorem compute_text_diff_reconstruct (old_text new_text : String) :
    String.mk (old_text.data.take
        (old_text.data.length - (compute_text_diff old_text new_text).chars_to_delete))
      ++ (compute_text_diff old_text new_text).suffix_to_type = new_text := by
  have hk := commonPrefixChars_le_left old_text.data new_text.data
  have h1 : old_text.data.length - (compute_text_diff old_text new_text).chars_to_delete
      = commonPrefixChars old_text.data new_text.data := by
    simp only [compute_text_diff]
    rw [List.length_drop]
    omega
  rw [h1, commonPrefixChars_take_eq, mk_append_mk]
  show String.mk (new_text.data.take _ ++ new_text.data.drop _) = new_text
  rw [List.take_append_drop]

/-- C2: `compute_text_diff` finds the longest common prefix in whole
characters (witnessed by `k` below: the two strings agree on their first
`k` characters and `k` cannot be extended), deletes the characters of
`old` beyond it and types the remainder of `new`; removing the last
`chars_to_delete` characters of `old` and appending `suffix_to_type`
reconstructs `new`; `diff(x, x)` is the empty edit, and
`diff("Hello world", "Hello there")` deletes 5 characters and types
`"there"`. -/
theorem C2_compute_text_diff_correct (old_text new_text : String) :
    (∃ k, k ≤ old_text.data.length ∧ k ≤ new_text.data.length ∧
      old_text.data.take k = new_text.data.take k ∧
      (k = old_text.data.length ∨ k = new_text.data.length ∨
        old_text.data.get? k ≠ new_text.data.get? k) ∧
      (compute_text_diff old_text new_text).chars_to_delete
        = old_text.data.length - k ∧
      (compute_text_diff old_text new_text).suffix_to_type
        = String.mk (new_text.data.drop k)) ∧
    String.mk (old_text.data.take
        (old_text.data.length - (compute_text_diff old_text new_text).chars_to_delete))
      ++ (compute_text_diff old_text new_text).suffix_to_type = new_text ∧
    (compute_text_diff old_text old_text).chars_to_delete = 0 ∧
    (compute_text_diff old_text old_text).suffix_to_type = "" ∧
    compute_text_diff "Hello world" "Hello there"
      = ⟨6, 5, "there"⟩ ∧
    compute_text_diff "Hello" "Hello world"
      = ⟨5, 0, " world"⟩ := by
  refine ⟨⟨commonPrefixChars old_text.data new_text.data,
      commonPrefixChars_le_left _ _, commonPrefixChars_le_right _ _,
      commonPrefixChars_take_eq _ _, commonPrefixChars_maximal _ _, ?_, rfl⟩,
      compute_text_diff_reconstruct _ _, ?_, ?_, by decide, by decide⟩
  · simp only [compute_text_diff]
    rw [List.length_drop]
  · simp only [compute_text_diff]
    rw [commonPrefixChars_self, List.drop_length]
    rfl
  · simp only [compute_text_diff]
    rw [commonPrefixChars_self, List.drop_length]

/-- `AudioCapture::is_silence` (`src/audio.rs`): empty chunks are silence;
otherwise `rms = sqrt (sum_squares / len) < threshold`, rendered over the
rationals as `0 < threshold ∧ sum_squares / len < threshold * threshold`
(equivalent since `sqrt` is non-negative and strictly monotone). -/
def is_silence (samples : List Rat) (threshold : Rat) : Bool :=
  if samples.isEmpty then
    true
  else
    let sum_squares : Rat := (samples.map (fun x => x * x)).sum
    let mean_square : Rat := sum_squares / (samples.length : Rat)
    decide (0 < threshold ∧ mean_square < threshold * threshold)

/-- `transcription_state::Action`. -/
inductive Action where
  | AppendText (text : String)
  | ReplaceText (chars_to_delete : Nat) (new_text : String)
  | SubmitVadRequest (samples : List Rat) (request_id : Nat)
  | SubmitLiveRequest (samples : List Rat) (request_id : Nat)
  | CancelLiveRequest
  | NoAction
deriving DecidableEq, Repr

/-- `transcription_state::TranscriptionState`. -/
structure TranscriptionState where
  vad_buffer : List Rat
  vad_committed_text : String
  live_preview_text : String
  silence_streak : Nat
  chunks_since_vad_commit : Nat
  pending_vad_request : Option Nat
  pending_live_request : Option Nat
  next_request_id : Nat
  silence_threshold : Rat
deriving DecidableEq, Repr

/-- `TranscriptionState::new`. -/
def TranscriptionState.new (silence_threshold : Rat) : TranscriptionState :=
  { vad_buffer := []
  , vad_committed_text := ""
  , live_preview_text := ""
  , silence_streak := 0
  , chunks_since_vad_commit := 0
  , pending_vad_request := none
  , pending_live_request := none
  , next_request_id := 1
  , silence_threshold := silence_threshold }

/-- `TranscriptionState::reset`: clears everything except the id counter
and the configured threshold. -/
def TranscriptionState.reset (s : TranscriptionState) : TranscriptionState :=
  { s with
    vad_buffer := []
  , vad_committed_text := ""
  , live_preview_text := ""
  , silence_streak := 0
  , chunks_since_vad_commit := 0
  , pending_vad_request := none
  , pending_live_request := none }

/-- The `if len < MIN_WHISPER_SAMPLES then resize(MIN_WHISPER_SAMPLES, 0.0)`
padding step used in both submission paths of `process_audio_chunk`. -/
def padToMin (buf : List Rat) : List Rat :=
  if buf.length < MIN_WHISPER_SAMPLES then
    buf ++ List.replicate (MIN_WHISPER_SAMPLES - buf.length) 0
  else
    buf

/-- `TranscriptionState::process_audio_chunk`.  The returned pair is the
action list and the updated state (the Rust method mutates `self`).
`generate_request_id` is inlined: it returns `next_request_id` and bumps
the counter with `wrapping_add(1)`. -/
def process_audio_chunk (s : TranscriptionState) (new_samples : List Rat) :
    List Action × TranscriptionState :=
  if is_silence new_samples s.silence_threshold then
    let streak := s.silence_streak + 1
    -- Only limited trailing silence is appended to the VAD buffer.
    let buf :=
      if s.vad_buffer ≠ [] ∧ streak ≤ MAX_TRAILING_SILENCE_CHUNKS then
        s.vad_buffer ++ new_samples
      else
        s.vad_buffer
    if COMMIT_SILENCE_CHUNKS ≤ streak ∧ buf ≠ [] ∧ s.pending_vad_request = none then
      let request_id := s.next_request_id
      ( Action.SubmitVadRequest (padToMin buf) request_id ::
          (if s.pending_live_request.isSome then [Action.CancelLiveRequest] else [])
      , { s with
          silence_streak := streak
        , vad_buffer := []
        , chunks_since_vad_commit := 0
        , pending_vad_request := some request_id
        , pending_live_request := none
        , next_request_id := (s.next_request_id + 1) % U64_MOD } )
    else
      ([], { s with silence_streak := streak, vad_buffer := buf })
  else
    -- Speech detected.
    let chunks := s.chunks_since_vad_commit + 1
    let buf := s.vad_buffer ++ new_samples
    if LIVE_PREVIEW_DELAY_CHUNKS ≤ chunks ∧ s.pending_live_request = none then
      let request_id := s.next_request_id
      ( [Action.SubmitLiveRequest (padToMin buf) request_id]
      , { s with
          silence_streak := 0
        , chunks_since_vad_commit := chunks
        , vad_buffer := buf
        , pending_live_request := some request_id
        , next_request_id := (s.next_request_id + 1) % U64_MOD } )
    else
      ([], { s with silence_streak := 0, chunks_since_vad_commit := chunks, vad_buffer := buf })

/-- `TranscriptionState::process_vad_result`. -/
def process_vad_result (s : TranscriptionState) (text : String) (request_id : Nat) :
    Action × TranscriptionState :=
  if s.pending_vad_request ≠ some request_id then
    (Action.NoAction, s)
  else
    let s1 : TranscriptionState := { s with pending_vad_request := none }
    if text.isEmpty then
      (Action.NoAction, s1)
    else
      let new_vad_committed := s1.vad_committed_text ++ text ++ " "
      let action :=
        match compute_append s1.live_preview_text new_vad_committed with
        | some suffix => Action.AppendText suffix
        | none =>
          if s1.live_preview_text ≠ "" then
            let diff := compute_text_diff s1.live_preview_text new_vad_committed
            if 0 < diff.chars_to_delete ∨ diff.suffix_to_type ≠ "" then
              Action.ReplaceText diff.chars_to_delete diff.suffix_to_type
            else
              Action.NoAction
          else
            Action.AppendText new_vad_committed
      ( action
      , { s1 with
          vad_committed_text := new_vad_committed
        , live_preview_text := new_vad_committed } )

/-- `TranscriptionState::process_live_result`. -/
def process_live_result (s : TranscriptionState) (text : String) (request_id : Nat) :
    Action × TranscriptionState :=
  if s.pending_live_request ≠ some request_id then
    (Action.NoAction, s)
  else
    let s1 : TranscriptionState := { s with pending_live_request := none }
    if text.isEmpty then
      (Action.NoAction, s1)
    else
      let full_live_text := s1.vad_committed_text ++ text
      let action :=
        match compute_append s1.live_preview_text full_live_text with
        | some suffix => Action.AppendText suffix
        | none =>
          if full_live_text.data.isPrefixOf s1.live_preview_text.data then
            -- The preview shows more than it should: delete the extra chars.
            Action.ReplaceText
              (s1.live_preview_text.data.length - full_live_text.data.length) ""
          else
            let diff := compute_text_diff s1.live_preview_text full_live_text
            if 0 < diff.chars_to_delete ∨ diff.suffix_to_type ≠ "" then
              Action.ReplaceText diff.chars_to_delete diff.suffix_to_type
            else
              Action.NoAction
      (action, { s1 with live_preview_text := full_live_text })

/-- `TranscriptionState::process_error`: clears whichever pending slot
matches the id; the Rust method returns `()`, so no action is produced. -/
def process_error (s : TranscriptionState) (request_id : Nat) : TranscriptionState :=
  let s1 :=
    if s.pending_vad_request = some request_id then
      { s with pending_vad_request := none }
    else
      s
  if s1.pending_live_request = some request_id then
    { s1 with pending_live_request := none }
  else
    s1

/-- `transcription_worker::WorkerMessage`. -/
inductive WorkerMessage where
  | Transcribe (samples : List Rat) (request_id : Nat)
  | Cancel (request_id : Nat)
  | CancelAllBefore (request_id : Nat)
deriving DecidableEq, Repr

/-- `std::sync::mpsc::SyncSender::try_send` on a bounded channel, modelled
on the queue contents: succeeds iff the queue is below capacity. -/
def try_send (queue : List WorkerMessage) (capacity : Nat) (msg : WorkerMessage) :
    Option (List WorkerMessage) :=
  if queue.length < capacity then some (queue ++ [msg]) else none

/-- `TranscriptionWorker::transcribe_vad_commit_with_id`: a `try_send` on
the VAD lane channel (capacity `MAX_PENDING_REQUESTS`); on
`TrySendError::Full` the request is dropped after printing a warning.
The function returns the queue after the call. -/
def transcribe_vad_commit_with_id (queue : List WorkerMessage)
    (samples : List Rat) (request_id : Nat) : List WorkerMessage :=
  match try_send queue MAX_PENDING_REQUESTS (WorkerMessage.Transcribe samples request_id) with
  | some q => q
  | none => queue

/-- The Unicode `White_Space` property, as used by Rust
`char::is_whitespace` (the worker loops call `str::trim` on every
successful transcription before sending it to the state machine). -/
def isUnicodeWhitespace (c : Char) : Bool :=
  c.val = 0x09 || c.val = 0x0A || c.val = 0x0B || c.val = 0x0C || c.val = 0x0D ||
  c.val = 0x20 || c.val = 0x85 || c.val = 0xA0 || c.val = 0x1680 ||
  (0x2000 ≤ c.val && c.val ≤ 0x200A) ||
  c.val = 0x2028 || c.val = 0x2029 || c.val = 0x202F || c.val = 0x205F || c.val = 0x3000

/-- Rust `str::trim`: strip leading and trailing `White_Space`
characters. -/
def rustTrim (s : String) : String :=
  String.mk (((s.data.dropWhile isUnicodeWhitespace).reverse.dropWhile
    isUnicodeWhitespace).reverse)

theorem rustTrim_of_all_whitespace (w : String)
    (hw : ∀ c ∈ w.data, isUnicodeWhitespace c = true) : rustTrim w = "" := by
  unfold rustTrim
  rw [List.dropWhile_eq_nil_iff.2 hw]
  rfl

/-! Frame and effect lemmas for the state-machine operations. -/

theorem process_audio_chunk_texts (s : TranscriptionState) (c : List Rat) :
    (process_audio_chunk s c).2.vad_committed_text = s.vad_committed_text ∧
    (process_audio_chunk s c).2.live_preview_text = s.live_preview_text := by
  simp only [process_audio_chunk]
  split
  · split <;> split <;> exact ⟨rfl, rfl⟩
  · split <;> exact ⟨rfl, rfl⟩

theorem process_vad_result_texts (s : TranscriptionState) (t : String) (rid : Nat) :
    ((process_vad_result s t rid).2.vad_committed_text = s.vad_committed_text ∧
     (process_vad_result s t rid).2.live_preview_text = s.live_preview_text) ∨
    ((process_vad_result s t rid).2.vad_committed_text = s.vad_committed_text ++ t ++ " " ∧
     (process_vad_result s t rid).2.live_preview_text
       = (process_vad_result s t rid).2.vad_committed_text) := by
  simp only [process_vad_result]
  split
  · exact Or.inl ⟨rfl, rfl⟩
  · split
    · exact Or.inl ⟨rfl, rfl⟩
    · exact Or.inr ⟨rfl, rfl⟩

theorem process_live_result_texts (s : TranscriptionState) (t : String) (rid : Nat) :
    (process_live_result s t rid).2.vad_committed_text = s.vad_committed_text ∧
    ((process_live_result s t rid).2.live_preview_text = s.live_preview_text ∨
     (process_live_result s t rid).2.live_preview_text = s.vad_committed_text ++ t) := by
  simp only [process_live_result]
  split
  · exact ⟨rfl, Or.inl rfl⟩
  · split
    · exact ⟨rfl, Or.inl rfl⟩
    · exact ⟨rfl, Or.inr rfl⟩

theorem process_error_spec (s : TranscriptionState) (rid : Nat) :
    process_error s rid =
      { s with
        pending_vad_request :=
          if s.pending_vad_request = some rid then none else s.pending_vad_request
      , pending_live_request :=
          if s.pending_live_request = some rid then none else s.pending_live_request } := by
  simp only [process_error]
  split <;> split <;> simp_all

theorem str_append_empty (s : String) : s ++ "" = s := by
  cases s with
  | mk l =>
    show String.mk (l ++ []) = String.mk l
    rw [List.append_nil]

/-- C1: committed text is monotonic.  `process_audio_chunk`,
`process_live_result` and `process_error` never change
`vad_committed_text`; `process_vad_result` either leaves it unchanged or
appends exactly the whole commit result followed by a space, so the old
committed text is always a prefix of the new one. -/
theorem C1_committed_text_monotonic (s : TranscriptionState) (chunk : List Rat)
    (t : String) (rid : Nat) :
    (process_audio_chunk s chunk).2.vad_committed_text = s.vad_committed_text ∧
    (process_live_result s t rid).2.vad_committed_text = s.vad_committed_text ∧
    (process_error s rid).vad_committed_text = s.vad_committed_text ∧
    ((process_vad_result s t rid).2.vad_committed_text = s.vad_committed_text ∨
     (process_vad_result s t rid).2.vad_committed_text = s.vad_committed_text ++ t ++ " ") ∧
    ∃ u, (process_vad_result s t rid).2.vad_committed_text = s.vad_committed_text ++ u := by
  refine ⟨(process_audio_chunk_texts s chunk).1, (process_live_result_texts s t rid).1,
    by rw [process_error_spec], ?_, ?_⟩
  · rcases process_vad_result_texts s t rid with h | h
    · exact Or.inl h.1
    · exact Or.inr h.1
  · rcases process_vad_result_texts s t rid with h | h
    · exact ⟨"", by rw [h.1, str_append_empty]⟩
    · exact ⟨t ++ " ", by rw [h.1, String.append_assoc]⟩

/-- C5: a result whose id does not match the corresponding pending slot is
a complete no-op: `NoAction` is returned and the state (every field) is
returned unchanged. -/
theorem C5_stale_id_rejection (s : TranscriptionState) (t : String) (rid : Nat) :
    (s.pending_vad_request ≠ some rid →
      process_vad_result s t rid = (Action.NoAction, s)) ∧
    (s.pending_live_request ≠ some rid →
      process_live_result s t rid = (Action.NoAction, s)) := by
  constructor
  · intro h
    simp only [process_vad_result]
    rw [if_pos h]
  · intro h
    simp only [process_live_result]
    rw [if_pos h]

/-- Concrete state used by several witnesses: both lanes pending on id 1. -/
def sWitA : TranscriptionState :=
  { vad_buffer := []
  , vad_committed_text := "a"
  , live_preview_text := "a"
  , silence_streak := 0
  , chunks_since_vad_commit := 0
  , pending_vad_request := some 1
  , pending_live_request := some 1
  , next_request_id := 2
  , silence_threshold := 1 / 100 }

/-- Witness for C5 at a concrete state and a stale id. -/
theorem C5_stale_id_rejection_witness :
    process_vad_result sWitA "test" 2 = (Action.NoAction, sWitA) ∧
    process_live_result sWitA "test" 2 = (Action.NoAction, sWitA) :=
  ⟨(C5_stale_id_rejection sWitA "test" 2).1 (by decide),
   (C5_stale_id_rejection sWitA "test" 2).2 (by decide)⟩

/-- C9: `process_error` clears a pending slot exactly when that slot holds
the given id, and changes nothing else; no text action is produced (the
Rust method returns `()`, which is why the embedding returns only the
updated state). -/
theorem C9_process_error_frame (s : TranscriptionState) (rid : Nat) :
    (process_error s rid).vad_buffer = s.vad_buffer ∧
    (process_error s rid).vad_committed_text = s.vad_committed_text ∧
    (process_error s rid).live_preview_text = s.live_preview_text ∧
    (process_error s rid).silence_streak = s.silence_streak ∧
    (process_error s rid).chunks_since_vad_commit = s.chunks_since_vad_commit ∧
    (process_error s rid).next_request_id = s.next_request_id ∧
    (process_error s rid).silence_threshold = s.silence_threshold ∧
    (process_error s rid).pending_vad_request
      = (if s.pending_vad_request = some rid then none else s.pending_vad_request) ∧
    (process_error s rid).pending_live_request
      = (if s.pending_live_request = some rid then none else s.pending_live_request) := by
  rw [process_error_spec]
  exact ⟨rfl, rfl, rfl, rfl, rfl, rfl, rfl, rfl, rfl⟩

/-- C10: an empty chunk is classified as silence for every threshold (the
RMS quotient is never reached), and feeding an empty chunk to
`process_audio_chunk` takes the silence path in every state: the silence
streak is incremented, which only the silence path does (the speech path
resets it to 0). -/
theorem C10_empty_chunk_is_silence (threshold : Rat) (s : TranscriptionState) :
    is_silence [] threshold = true ∧
    (process_audio_chunk s []).2.silence_streak = s.silence_streak + 1 := by
  constructor
  · rfl
  · have h : is_silence [] s.silence_threshold = true := rfl
    simp only [process_audio_chunk, h]
    split
    · split <;> split <;> rfl
    · next h2 => exact absurd trivial h2

/-- States reachable from `TranscriptionState::new` by the state-machine
operations (including `reset`, used at session start). -/
inductive Reachable : TranscriptionState → Prop where
  | init (threshold : Rat) : Reachable (TranscriptionState.new threshold)
  | chunk {s : TranscriptionState} (samples : List Rat) :
      Reachable s → Reachable (process_audio_chunk s samples).2
  | vad {s : TranscriptionState} (t : String) (rid : Nat) :
      Reachable s → Reachable (process_vad_result s t rid).2
  | live {s : TranscriptionState} (t : String) (rid : Nat) :
      Reachable s → Reachable (process_live_result s t rid).2
  | err {s : TranscriptionState} (rid : Nat) :
      Reachable s → Reachable (process_error s rid)
  | reset {s : TranscriptionState} : Reachable s → Reachable s.reset

/-- C6: in every reachable state the preview text is the committed text
plus at most one pending preview suffix; in particular the committed text
is always a prefix of the preview text. -/
theorem C6_preview_extends_committed (s : TranscriptionState) (h : Reachable s) :
    ∃ u, s.live_preview_text = s.vad_committed_text ++ u := by
  induction h with
  | init threshold => exact ⟨"", rfl⟩
  | chunk samples hr ih =>
    obtain ⟨u, hu⟩ := ih
    exact ⟨u, by
      rw [(process_audio_chunk_texts _ samples).1, (process_audio_chunk_texts _ samples).2, hu]⟩
  | vad t rid hr ih =>
    obtain ⟨u, hu⟩ := ih
    rcases process_vad_result_texts _ t rid with ⟨h1, h2⟩ | ⟨h1, h2⟩
    · exact ⟨u, by rw [h1, h2, hu]⟩
    · exact ⟨"", by rw [h2, str_append_empty]⟩
  | live t rid hr ih =>
    obtain ⟨u, hu⟩ := ih
    obtain ⟨h1, h2 | h2⟩ := process_live_result_texts _ t rid
    · exact ⟨u, by rw [h1, h2, hu]⟩
    · exact ⟨t, by rw [h1, h2]⟩
  | err rid hr ih =>
    obtain ⟨u, hu⟩ := ih
    exact ⟨u, by rw [process_error_spec]; exact hu⟩
  | reset hr ih => exact ⟨"", rfl⟩

/-- Witness for C6 at the initial state. -/
theorem C6_preview_extends_committed_witness :
    ∃ u, (TranscriptionState.new 0).live_preview_text
      = (TranscriptionState.new 0).vad_committed_text ++ u :=
  C6_preview_extends_committed _ (Reachable.init 0)

theorem padToMin_min_le (buf : List Rat) :
    MIN_WHISPER_SAMPLES ≤ (padToMin buf).length := by
  unfold padToMin
  split
  · rw [List.length_append, List.length_replicate]
    omega
  · omega

/-- C4: from a state whose silence streak reaches the commit threshold on
one further silence chunk, with a non-empty buffer and no pending commit,
that chunk produces exactly one `SubmitVadRequest` — carrying the buffer
padded to at least `MIN_WHISPER_SAMPLES` samples and the freshly minted
id — followed by exactly one `CancelLiveRequest` iff a live request was
pending; afterwards the buffer is empty, the speech-chunk counter is zero,
the commit slot holds the new id and the live slot is clear. -/
theorem C4_silence_commit (s : TranscriptionState) (chunk : List Rat)
    (hsil : is_silence chunk s.silence_threshold = true)
    (hstreak : COMMIT_SILENCE_CHUNKS ≤ s.silence_streak + 1)
    (hbuf : s.vad_buffer ≠ [])
    (hpend : s.pending_vad_request = none) :
    (process_audio_chunk s chunk).1
      = Action.SubmitVadRequest (padToMin s.vad_buffer) s.next_request_id ::
          (if s.pending_live_request.isSome then [Action.CancelLiveRequest] else []) ∧
    MIN_WHISPER_SAMPLES ≤ (padToMin s.vad_buffer).length ∧
    (process_audio_chunk s chunk).2.vad_buffer = [] ∧
    (process_audio_chunk s chunk).2.chunks_since_vad_commit = 0 ∧
    (process_audio_chunk s chunk).2.pending_vad_request = some s.next_request_id ∧
    (process_audio_chunk s chunk).2.pending_live_request = none ∧
    (process_audio_chunk s chunk).2.next_request_id = (s.next_request_id + 1) % U64_MOD := by
  have hb : ¬(s.vad_buffer ≠ [] ∧ s.silence_streak + 1 ≤ MAX_TRAILING_SILENCE_CHUNKS) := by
    rintro ⟨-, h2⟩
    simp only [COMMIT_SILENCE_CHUNKS] at hstreak
    simp only [MAX_TRAILING_SILENCE_CHUNKS] at h2
    omega
  simp only [process_audio_chunk, hsil]
  rw [if_pos trivial, if_neg hb, if_pos ⟨hstreak, hbuf, hpend⟩]
  exact ⟨rfl, padToMin_min_le _, rfl, rfl, rfl, rfl, rfl⟩

/-- Concrete state for the C4 and C7 witnesses: streak at the threshold,
three samples buffered, no pending commit, pending live id 7. -/
def sWitB : TranscriptionState :=
  { vad_buffer := [1, 1, 1]
  , vad_committed_text := ""
  , live_preview_text := ""
  , silence_streak := 5
  , chunks_since_vad_commit := 3
  , pending_vad_request := none
  , pending_live_request := some 7
  , next_request_id := 8
  , silence_threshold := 1 / 100 }

/-- Witness for C4 at `sWitB` with an empty (hence silent) chunk. -/
theorem C4_silence_commit_witness :
    (process_audio_chunk sWitB []).1
      = Action.SubmitVadRequest (padToMin sWitB.vad_buffer) sWitB.next_request_id ::
          (if sWitB.pending_live_request.isSome then [Action.CancelLiveRequest] else []) ∧
    MIN_WHISPER_SAMPLES ≤ (padToMin sWitB.vad_buffer).length ∧
    (process_audio_chunk sWitB []).2.vad_buffer = [] ∧
    (process_audio_chunk sWitB []).2.chunks_since_vad_commit = 0 ∧
    (process_audio_chunk sWitB []).2.pending_vad_request = some sWitB.next_request_id ∧
    (process_audio_chunk sWitB []).2.pending_live_request = none ∧
    (process_audio_chunk sWitB []).2.next_request_id = (sWitB.next_request_id + 1) % U64_MOD :=
  C4_silence_commit sWitB [] rfl (by decide) (by decide) rfl

/-- C7: at most one outstanding request per lane.  Each pending slot is an
`Option`, so it holds at most one id by construction; `process_audio_chunk`
emits a `SubmitLiveRequest` only when the live slot was empty and fills
exactly that slot with the submitted id (leaving the commit slot as it
was), and emits a `SubmitVadRequest` only when the commit slot was empty
and fills exactly that slot with the submitted id. -/
theorem C7_one_request_per_lane (s : TranscriptionState) (chunk : List Rat) :
    (∀ a rid, Action.SubmitLiveRequest a rid ∈ (process_audio_chunk s chunk).1 →
      s.pending_live_request = none ∧
      (process_audio_chunk s chunk).2.pending_live_request = some rid ∧
      (process_audio_chunk s chunk).2.pending_vad_request = s.pending_vad_request) ∧
    (∀ a rid, Action.SubmitVadRequest a rid ∈ (process_audio_chunk s chunk).1 →
      s.pending_vad_request = none ∧
      (process_audio_chunk s chunk).2.pending_vad_request = some rid) := by
  simp only [process_audio_chunk]
  split
  · split <;> split <;> (try split) <;>
      refine ⟨fun a rid h => ?_, fun a rid h => ?_⟩ <;> simp_all
  · split <;> refine ⟨fun a rid h => ?_, fun a rid h => ?_⟩ <;> simp_all

/-- Witness for C7: at `sWitB` a commit submission occurs, and the theorem
yields that the commit slot was empty before and holds the new id 8 after. -/
theorem C7_one_request_per_lane_witness :
    sWitB.pending_vad_request = none ∧
    (process_audio_chunk sWitB []).2.pending_vad_request = some 8 :=
  (C7_one_request_per_lane sWitB []).2 (padToMin [1, 1, 1]) 8 (by
    have h : (process_audio_chunk sWitB []).1
        = Action.SubmitVadRequest (padToMin [1, 1, 1]) 8 :: [Action.CancelLiveRequest] := rfl
    rw [h]
    exact List.mem_cons_self _ _)

/-- A VAD lane queue already at capacity (`MAX_PENDING_REQUESTS = 2`). -/
def fullVadQueue : List WorkerMessage :=
  [WorkerMessage.Transcribe [] 1, WorkerMessage.Transcribe [] 2]

/-- C3 counterexample: submitting a commit request while the commit lane
queue is at capacity leaves the queue unchanged and the request never
enters it — the call uses `try_send` and drops the request instead of
blocking. -/
theorem C3_counterexample :
    transcribe_vad_commit_with_id fullVadQueue [] 3 = fullVadQueue ∧
    WorkerMessage.Transcribe [] 3 ∉ transcribe_vad_commit_with_id fullVadQueue [] 3 := by
  decide

/-- C3 (amended): commit submission is a non-blocking `try_send`: below
capacity the request is enqueued at the tail, at capacity it is dropped
(after a loud warning) rather than blocking. -/
theorem C3_commit_submission_try_send (q : List WorkerMessage)
    (samples : List Rat) (rid : Nat) :
    (q.length < MAX_PENDING_REQUESTS →
      transcribe_vad_commit_with_id q samples rid
        = q ++ [WorkerMessage.Transcribe samples rid]) ∧
    (MAX_PENDING_REQUESTS ≤ q.length →
      transcribe_vad_commit_with_id q samples rid = q) := by
  constructor
  · intro h
    simp only [transcribe_vad_commit_with_id, try_send]
    rw [if_pos h]
  · intro h
    simp only [transcribe_vad_commit_with_id, try_send]
    rw [if_neg (Nat.not_lt.2 h)]

/-- Witness for the amended C3: an empty queue accepts the request, a full
queue drops it. -/
theorem C3_commit_submission_try_send_witness :
    transcribe_vad_commit_with_id [] [] 1 = [] ++ [WorkerMessage.Transcribe [] 1] ∧
    transcribe_vad_commit_with_id fullVadQueue [] 3 = fullVadQueue :=
  ⟨(C3_commit_submission_try_send [] [] 1).1 (by decide),
   (C3_commit_submission_try_send fullVadQueue [] 3).2 (by decide)⟩

/-- Concrete state for the C8 counterexample: commit pending on id 1,
empty committed and preview text. -/
def sWitC : TranscriptionState :=
  { vad_buffer := []
  , vad_committed_text := ""
  , live_preview_text := ""
  , silence_streak := 0
  , chunks_since_vad_commit := 0
  , pending_vad_request := some 1
  , pending_live_request := none
  , next_request_id := 2
  , silence_threshold := 0 }

/-- C8 counterexample: `process_vad_result` itself only checks for the
empty string, so a whitespace-only text `" "` with a matching id is not a
no-op — it commits whitespace and emits a text action. -/
theorem C8_counterexample :
    (process_vad_result sWitC " " 1).1 ≠ Action.NoAction ∧
    (process_vad_result sWitC " " 1).2.vad_committed_text ≠ sWitC.vad_committed_text := by
  decide

/-- C8 (amended): empty or whitespace-only inference results are no-ops at
the system level: the worker loops send `text.trim()` to the state
machine, the trim of a whitespace-only string is empty, and on empty text
`process_vad_result` / `process_live_result` with a matching id return
`NoAction` and change nothing but the pending slot, which clears. -/
theorem C8_trimmed_whitespace_noop (s : TranscriptionState) (rid : Nat) (w : String)
    (hw : ∀ c ∈ w.data, isUnicodeWhitespace c = true) :
    (s.pending_vad_request = some rid →
      process_vad_result s (rustTrim w) rid
        = (Action.NoAction, { s with pending_vad_request := none })) ∧
    (s.pending_live_request = some rid →
      process_live_result s (rustTrim w) rid
        = (Action.NoAction, { s with pending_live_request := none })) := by
  have ht : rustTrim w = "" := rustTrim_of_all_whitespace w hw
  rw [ht]
  constructor
  · intro h
    simp only [process_vad_result]
    rw [if_neg (not_not_intro h), if_pos (show String.isEmpty "" = true from rfl)]
  · intro h
    simp only [process_live_result]
    rw [if_neg (not_not_intro h), if_pos (show String.isEmpty "" = true from rfl)]

/-- Witness for the amended C8 at `sWitA` with the whitespace result `" "`. -/
theorem C8_trimmed_whitespace_noop_witness :
    process_vad_result sWitA (rustTrim " ") 1
      = (Action.NoAction, { sWitA with pending_vad_request := none }) ∧
    process_live_result sWitA (rustTrim " ") 1
      = (Action.NoAction, { sWitA with pending_live_request := none }) :=
  ⟨(C8_trimmed_whitespace_noop sWitA 1 " " (by decide)).1 rfl,
   (C8_trimmed_whitespace_noop sWitA 1 " " (by decide)).2 rfl⟩

end LiveTranscribe
